import Mathlib

/-!
Shallow embedding of the Binance trading bot's order-execution core
(`src/trading_bot.py`, `src/app/orders/{grid,oco,twap}.py`,
`src/app/strategy/sma_crossover.py`, `src/app/backtest/engine.py`).

Conventions used throughout:
* Python floats and `Decimal` values are modelled as rationals (`ℚ`);
  numeric strings passed to the exchange are modelled by the rational
  they denote.
* The exchange client is a parameter: each client method becomes a
  function argument returning `Except String α` (`Except.error e`
  models a raised exception whose `str` is `e`).
* A Python dict returned to the caller becomes a structure whose
  `Option` fields record which keys are present in the dict.
-/

namespace BinanceBot

/-- Python's `str.upper()` restricted to ASCII strings (all strings the
bot compares with `.upper()` are ASCII: sides, order types, symbols). -/
def pyUpper (s : String) : String := String.mk (s.data.map Char.toUpper)

/-- A limit-order request as sent by `GridTrader.build_grid`
(`client.create_order(symbol=…, side=…, type='LIMIT', timeInForce='GTC',
quantity=…, price=…)`). -/
structure GridReq where
  symbol : String
  side : String
  timeInForce : String
  quantity : String
  price : ℚ
deriving DecidableEq, Repr

/-- The dict returned by `GridTrader.build_grid`: on success
`{'success': True, 'orders': orders}`, on failure
`{'success': False, 'error': str(e)}`. `Option` fields model key
presence. -/
structure GridResult (α : Type) where
  success : Bool
  orders : Option (List α)
  error : Option String
deriving DecidableEq, Repr

/-- Level price computed inside the `build_grid` loop:
`base_price * (1 - step_pct * i)` on the BUY branch,
`base_price * (1 + step_pct * i)` otherwise. -/
def gridLevelPrice (basePrice stepPct : ℚ) (side : String) (i : ℕ) : ℚ :=
  if pyUpper side = "BUY" then basePrice * (1 - stepPct * (i : ℚ))
  else basePrice * (1 + stepPct * (i : ℚ))

/-- The `create_order` request issued for level `i` in `build_grid`
(BUY branch sends side `'BUY'`, any other side sends `'SELL'`). -/
def gridLevelReq (symbol : String) (basePrice stepPct : ℚ) (qty side : String)
    (i : ℕ) : GridReq :=
  if pyUpper side = "BUY" then
    ⟨symbol, "BUY", "GTC", qty, basePrice * (1 - stepPct * (i : ℚ))⟩
  else
    ⟨symbol, "SELL", "GTC", qty, basePrice * (1 + stepPct * (i : ℚ))⟩

/-- The `for i in range(1, levels + 1)` loop of `build_grid`, with the
accumulated `orders` list; an exception from `create_order` is caught by
the surrounding `try` and turned into `{'success': False, 'error': str(e)}`
(the accumulated orders are not included in the failure dict). -/
def buildGridGo (client : GridReq → Except String α) (symbol : String)
    (basePrice stepPct : ℚ) (qty side : String) :
    List ℕ → List α → GridResult α
  | [], acc => ⟨true, some acc.reverse, none⟩
  | i :: rest, acc =>
    match client (gridLevelReq symbol basePrice stepPct qty side i) with
    | Except.ok o => buildGridGo client symbol basePrice stepPct qty side rest (o :: acc)
    | Except.error e => ⟨false, none, some e⟩

/-- `GridTrader.build_grid(symbol, base_price, levels, step_pct, qty, side)`. -/
def buildGrid (client : GridReq → Except String α) (symbol : String)
    (basePrice : ℚ) (levels : ℕ) (stepPct : ℚ) (qty side : String) : GridResult α :=
  buildGridGo client symbol basePrice stepPct qty side (List.range' 1 levels) []

/-- A concrete exchange client for grid examples: accepts the order priced
at 99 (level 1 of a 100-based, 1%-step BUY grid) and raises on any other
request. -/
def gridClientEx : GridReq → Except String ℕ :=
  fun r => if r.price = 99 then Except.ok 1 else Except.error "boom"

/-- An order request sent via `client.create_order` (keyword arguments of
the call sites in `oco.py`); `Option` fields model keyword arguments that
some call sites omit. -/
structure OrderReq where
  symbol : String
  side : String
  type : String
  timeInForce : Option String
  quantity : String
  price : Option String
  stopPrice : Option String
deriving DecidableEq, Repr

/-- The native OCO request sent via `client.create_oco_order` in
`OCOManager.submit`. -/
structure OcoNativeReq where
  symbol : String
  side : String
  quantity : String
  price : String
  stopPrice : String
  stopLimitPrice : String
  stopLimitTimeInForce : String
deriving DecidableEq, Repr

/-- The exchange client seen by `OCOManager`: `createOcoOrder = none` models
`hasattr(client, 'create_oco_order')` being false. -/
structure OcoClient (α β : Type) where
  createOcoOrder : Option (OcoNativeReq → Except String β)
  createOrder : OrderReq → Except String α

/-- The dict returned by `OCOManager.submit`; `Option` fields model which
keys the dict carries (`'oco'`/`'mode'` on native success,
`'tp'`/`'sl'`/`'mode'` on client-side success, `'error'` on failure). -/
structure OcoResult (α β : Type) where
  success : Bool
  oco : Option β
  tp : Option α
  sl : Option α
  mode : Option String
  error : Option String
deriving DecidableEq, Repr

/-- `exit_side = 'SELL' if side.upper() == 'BUY' else 'BUY'`. -/
def ocoExitSide (side : String) : String :=
  if pyUpper side = "BUY" then "SELL" else "BUY"

/-- The take-profit fallback leg request built in `OCOManager.submit`. -/
def ocoTpReq (symbol side qty tpPrice : String) : OrderReq :=
  ⟨symbol, ocoExitSide side, "LIMIT", some "GTC", qty, some tpPrice, none⟩

/-- The stop-loss fallback leg request built in `OCOManager.submit`. -/
def ocoSlReq (symbol side qty slPrice : String) : OrderReq :=
  ⟨symbol, ocoExitSide side, "STOP_LOSS_LIMIT", some "GTC", qty, some slPrice, some slPrice⟩

/-- The native OCO request built in `OCOManager.submit`. -/
def ocoNativeOf (symbol side qty tpPrice slPrice : String) : OcoNativeReq :=
  ⟨symbol, ocoExitSide side, qty, tpPrice, slPrice, slPrice, "GTC"⟩

/-- One exchange call made during `OCOManager.submit`, recorded in order.
`cancelled` exists in the action vocabulary so that the absence of any
cancel call in `submit` is a provable statement about the trace. -/
inductive OcoCall (α β : Type)
  | created (req : OrderReq) (res : Except String α)
  | createdNative (req : OcoNativeReq) (res : Except String β)
  | cancelled (symbol : String) (orderId : ℕ)

/-- The client-side fallback block of `OCOManager.submit`: place the TP leg,
then the SL leg; any exception is caught by the surrounding `try` and turned
into `{'success': False, 'error': str(e)}` (the already-placed TP order is
not reported). Returns the result dict and the trace of exchange calls. -/
def ocoFallback (c : OcoClient α β) (symbol side qty tpPrice slPrice : String) :
    OcoResult α β × List (OcoCall α β) :=
  match c.createOrder (ocoTpReq symbol side qty tpPrice) with
  | Except.error e =>
    (⟨false, none, none, none, none, some e⟩,
      [OcoCall.created (ocoTpReq symbol side qty tpPrice) (Except.error e)])
  | Except.ok tp =>
    match c.createOrder (ocoSlReq symbol side qty slPrice) with
    | Except.error e =>
      (⟨false, none, none, none, none, some e⟩,
        [OcoCall.created (ocoTpReq symbol side qty tpPrice) (Except.ok tp),
         OcoCall.created (ocoSlReq symbol side qty slPrice) (Except.error e)])
    | Except.ok sl =>
      (⟨true, none, some tp, some sl, some "client", none⟩,
        [OcoCall.created (ocoTpReq symbol side qty tpPrice) (Except.ok tp),
         OcoCall.created (ocoSlReq symbol side qty slPrice) (Except.ok sl)])

/-- `OCOManager.submit(symbol, side, qty, tp_price, sl_price)`: try the
native OCO first (if the client has `create_oco_order`); on its exception,
or when the method is absent, fall back to the two client-side legs. -/
def ocoSubmit (c : OcoClient α β) (symbol side qty tpPrice slPrice : String) :
    OcoResult α β × List (OcoCall α β) :=
  match c.createOcoOrder with
  | none => ocoFallback c symbol side qty tpPrice slPrice
  | some f =>
    match f (ocoNativeOf symbol side qty tpPrice slPrice) with
    | Except.ok oco =>
      (⟨true, some oco, none, none, some "native", none⟩,
        [OcoCall.createdNative (ocoNativeOf symbol side qty tpPrice slPrice) (Except.ok oco)])
    | Except.error e =>
      let ft := ocoFallback c symbol side qty tpPrice slPrice
      (ft.1, OcoCall.createdNative (ocoNativeOf symbol side qty tpPrice slPrice)
        (Except.error e) :: ft.2)

/-- A concrete client for OCO examples: native OCO is present but rejects;
`create_order` accepts the LIMIT (take-profit) leg with order id 10 and
raises on the STOP_LOSS_LIMIT (stop-loss) leg. -/
def ocoClientEx : OcoClient ℕ ℕ :=
  ⟨some (fun _ => Except.error "native rejected"),
   fun r => if r.type = "LIMIT" then Except.ok 10 else Except.error "sl failed"⟩

/-- `slice_qty = max(total_qty / slices, min_slice_qty)` in
`TWAPExecutor.execute`. -/
def twapSliceQty (totalQty : ℚ) (slices : ℤ) (minSliceQty : ℚ) : ℚ :=
  max (totalQty / (slices : ℚ)) minSliceQty

/-- `interval = duration_sec / slices` in `TWAPExecutor.execute`
(Python float division, modelled exactly over `ℚ`). -/
def twapInterval (durationSec slices : ℤ) : ℚ :=
  (durationSec : ℚ) / (slices : ℚ)

/-- The market-order request issued for every TWAP slice
(`create_order(symbol=…, side=side.upper(), type='MARKET', quantity=…)`). -/
structure TwapReq where
  symbol : String
  side : String
  type : String
  quantity : ℚ
deriving DecidableEq, Repr

/-- The (identical) request sent on each TWAP slice. -/
def twapOrderReq (symbol side : String) (totalQty : ℚ) (slices : ℤ)
    (minSliceQty : ℚ) : TwapReq :=
  ⟨symbol, pyUpper side, "MARKET", twapSliceQty totalQty slices minSliceQty⟩

/-- The dict returned by `TWAPExecutor.execute`: `Option` fields model key
presence (`'placed'` is present both on success and on a slice failure, but
absent on parameter rejection). -/
structure TwapResult (α : Type) where
  success : Bool
  placed : Option (List α)
  error : Option String
deriving DecidableEq, Repr

/-- The `for i in range(slices)` loop of `execute`, together with the number
of `create_order` calls issued; `resp i` is the exchange's response to the
i-th call. `time.sleep(interval)` paces the loop in wall-clock time and has
no effect on the returned value, so it is not modelled. -/
def twapGo (resp : ℕ → Except String α) : List ℕ → List α → TwapResult α × ℕ
  | [], placed => (⟨true, some placed.reverse, none⟩, 0)
  | i :: rest, placed =>
    match resp i with
    | Except.ok o =>
      let r := twapGo resp rest (o :: placed)
      (r.1, r.2 + 1)
    | Except.error e => (⟨false, some placed.reverse, some e⟩, 1)

/-- `TWAPExecutor.execute(symbol, side, total_qty, duration_sec, slices,
min_slice_qty)`: parameter check, then the slice loop. Returns the result
dict and the number of orders issued. -/
def twapExecute (resp : ℕ → TwapReq → Except String α) (symbol side : String)
    (totalQty : ℚ) (durationSec slices : ℤ) (minSliceQty : ℚ) :
    TwapResult α × ℕ :=
  if slices ≤ 0 ∨ durationSec ≤ 0 then
    (⟨false, none, some "Invalid slices/duration"⟩, 0)
  else
    twapGo (fun i => resp i (twapOrderReq symbol side totalQty slices minSliceQty))
      (List.range slices.toNat) []

/-- One symbol filter dict reported by `get_exchange_info` per symbol,
discriminated by its `filterType` (`LOT_SIZE` carries `stepSize`,
`PRICE_FILTER` carries `tickSize`). -/
inductive ExFilter
  | lotSize (stepSize : ℚ)
  | priceFilter (tickSize : ℚ)
  | otherFilter (filterType : String)
deriving DecidableEq, Repr

/-- One entry of `get_exchange_info()['symbols']`. -/
structure SymbolInfo where
  symbol : String
  filters : List ExFilter
deriving DecidableEq, Repr

/-- `TradingBot.get_symbol_info`: scan the exchange info for
`symbol.upper()`, returning the first match; `None` when absent or when
`get_exchange_info` raises. -/
def getSymbolInfo (exchangeInfo : Except String (List SymbolInfo))
    (symbol : String) : Option SymbolInfo :=
  match exchangeInfo with
  | Except.error _ => none
  | Except.ok symbols => symbols.find? (fun s => s.symbol = pyUpper symbol)

/-- `valid_types` in `validate_order_params`. -/
def validOrderTypes : List String :=
  ["MARKET", "LIMIT", "STOP_LOSS_LIMIT", "TAKE_PROFIT_LIMIT"]

/-- The types for which `validate_order_params` requires a price. -/
def priceRequiredTypes : List String :=
  ["LIMIT", "STOP_LOSS_LIMIT", "TAKE_PROFIT_LIMIT"]

/-- `price is None or price <= 0`. -/
def priceMissingOrNonpos (price : Option ℚ) : Bool :=
  match price with
  | none => true
  | some p => decide (p ≤ 0)

/-- `TradingBot.validate_order_params(symbol, side, order_type, quantity,
price)`: checks, in order, known symbol, side, order type, raw quantity
`> 0`, and price presence/positivity for price-requiring types. -/
def validateOrderParams (exchangeInfo : Except String (List SymbolInfo))
    (symbol side orderType : String) (quantity : ℚ) (price : Option ℚ) : Bool :=
  match getSymbolInfo exchangeInfo symbol with
  | none => false
  | some _ =>
    if pyUpper side ∉ (["BUY", "SELL"] : List String) then false
    else if pyUpper orderType ∉ validOrderTypes then false
    else if quantity ≤ 0 then false
    else if pyUpper orderType ∈ priceRequiredTypes ∧ priceMissingOrNonpos price then false
    else true

/-- Python `Decimal.__floordiv__`: the integer part of the true quotient,
truncated toward zero (for the quantizer's non-negative operands this is
the floor). -/
def decFloorDiv (q s : ℚ) : ℤ :=
  if 0 ≤ q / s then ⌊q / s⌋ else ⌈q / s⌉

/-- `(Decimal(str(x)) // step) * step` — the quantization step shared by
`format_quantity` and `format_price`. -/
def quantize (q s : ℚ) : ℚ := (decFloorDiv q s : ℚ) * s

/-- The `stepSize` of a `LOT_SIZE` filter, if this is one. -/
def lotSizeStep (f : ExFilter) : Option ℚ :=
  match f with
  | ExFilter.lotSize step => some step
  | _ => none

/-- The `tickSize` of a `PRICE_FILTER` filter, if this is one. -/
def tickSizeOf (f : ExFilter) : Option ℚ :=
  match f with
  | ExFilter.priceFilter tick => some tick
  | _ => none

/-- `TradingBot.format_quantity`, modelled by the rational value the
returned string denotes: quantize down to the first `LOT_SIZE` step when
symbol info and such a filter exist, otherwise return the raw quantity
(`str(quantity)`). -/
def formatQuantity (exchangeInfo : Except String (List SymbolInfo))
    (symbol : String) (quantity : ℚ) : ℚ :=
  match getSymbolInfo exchangeInfo symbol with
  | some info =>
    match info.filters.findSome? lotSizeStep with
    | some step => quantize quantity step
    | none => quantity
  | none => quantity

/-- `TradingBot.format_price`, same shape as `format_quantity` with
`PRICE_FILTER`/`tickSize`. -/
def formatPrice (exchangeInfo : Except String (List SymbolInfo))
    (symbol : String) (price : ℚ) : ℚ :=
  match getSymbolInfo exchangeInfo symbol with
  | some info =>
    match info.filters.findSome? tickSizeOf with
    | some tick => quantize price tick
    | none => price
  | none => price

/-- The request of the single `create_order` call in `place_market_order`. -/
structure MarketReq where
  symbol : String
  side : String
  type : String
  quantity : ℚ
deriving DecidableEq, Repr

/-- Result dict of `place_market_order`: the success dict (carrying the
exchange's order) or `{'success': False, 'error': e}`. -/
inductive PlaceResult (α : Type)
  | ok (order : α)
  | err (error : String)
deriving DecidableEq, Repr

/-- `TradingBot.place_market_order`: validate, format the quantity, then a
single `create_order` call. `createOrder n` is the exchange's response to
the n-th call this invocation makes; the body has exactly one call site,
which is call 0. A validation failure raises
`ValueError('Invalid order parameters')`, caught by the enclosing `except`
and returned as the error dict; an exception from `create_order` is caught
the same way. (The `save_order` persistence call is wrapped in its own
`try/except` and cannot change the result, so it is not modelled.) -/
def placeMarketOrder (exchangeInfo : Except String (List SymbolInfo))
    (createOrder : ℕ → MarketReq → Except String α) (symbol side : String)
    (quantity : ℚ) : PlaceResult α :=
  if validateOrderParams exchangeInfo symbol side "MARKET" quantity none then
    match createOrder 0 ⟨pyUpper symbol, pyUpper side, "MARKET",
        formatQuantity exchangeInfo symbol quantity⟩ with
    | Except.ok o => PlaceResult.ok o
    | Except.error e => PlaceResult.err e
  else PlaceResult.err "Invalid order parameters"

/-- Exchange info for examples: BTCUSDT with `LOT_SIZE` step 0.001 and
`PRICE_FILTER` tick 0.01. -/
def exInfoEx : Except String (List SymbolInfo) :=
  Except.ok [⟨"BTCUSDT", [ExFilter.lotSize (1/1000), ExFilter.priceFilter (1/100)]⟩]

/-- Client for the retry counterexample: the first `create_order` call
raises a timeout-style error; every later call would succeed with
order id 7. -/
def retryClientEx : ℕ → MarketReq → Except String ℕ :=
  fun n _ => if n = 0 then Except.error "Read timed out." else Except.ok 7

/-- Client for TWAP examples: slices 0 and 1 are accepted (order ids 1, 2),
the third call (index 2) raises. -/
def twapClientEx : ℕ → TwapReq → Except String ℕ :=
  fun i _ => if i < 2 then Except.ok (i + 1) else Except.error "slice failed"

/-- A trading signal: the `'signal'` value of the dict returned by
`SMACrossover.on_bar_close`. -/
inductive Signal
  | LONG
  | FLAT
deriving DecidableEq, Repr

/-- The dict `{'symbol': symbol, 'signal': …}` returned on a crossover. -/
structure SignalMsg where
  symbol : String
  signal : Signal
deriving DecidableEq, Repr

/-- `collections.deque(maxlen=n).append(x)`: append on the right, evicting
from the left anything past capacity. -/
def dequeAppend (maxlen : ℕ) (xs : List ℚ) (x : ℚ) : List ℚ :=
  let ys := xs ++ [x]
  if maxlen < ys.length then ys.drop (ys.length - maxlen) else ys

/-- The state of an `SMACrossover` instance: the two periods and the
per-symbol dict `self.buf` of (fast window, slow window); `none` models a
symbol not yet present in the dict. -/
structure SMACrossover where
  fast : ℕ
  slow : ℕ
  buf : String → Option (List ℚ × List ℚ)

/-- The `SMACrossover(fast, slow)` constructor: an empty buffer dict. -/
def initSMA (fast slow : ℕ) : SMACrossover := ⟨fast, slow, fun _ => none⟩

/-- The fast window after this bar's append (`d['fast'].append(close)`,
where `d` is `setdefault`'s entry — empty deques on first sight). -/
def smaFastWin (m : SMACrossover) (symbol : String) (close : ℚ) : List ℚ :=
  dequeAppend m.fast ((m.buf symbol).getD ([], [])).1 close

/-- The slow window after this bar's append (`d['slow'].append(close)`). -/
def smaSlowWin (m : SMACrossover) (symbol : String) (close : ℚ) : List ℚ :=
  dequeAppend m.slow ((m.buf symbol).getD ([], [])).2 close

/-- `SMACrossover.on_bar_close(symbol, ohlc)` for one close price: append
the close to both windows of this symbol, and when both windows are exactly
at capacity compare the arithmetic means: LONG if fast > slow, FLAT if
fast < slow, no signal otherwise. Returns the new state and the optional
signal dict. -/
def onBarClose (m : SMACrossover) (symbol : String) (close : ℚ) :
    SMACrossover × Option SignalMsg :=
  let fb := smaFastWin m symbol close
  let sb := smaSlowWin m symbol close
  let m2 : SMACrossover :=
    ⟨m.fast, m.slow, fun s => if s = symbol then some (fb, sb) else m.buf s⟩
  let sig : Option SignalMsg :=
    if fb.length = m.fast ∧ sb.length = m.slow then
      let f := fb.sum / (m.fast : ℚ)
      let s := sb.sum / (m.slow : ℚ)
      if s < f then some ⟨symbol, Signal.LONG⟩
      else if f < s then some ⟨symbol, Signal.FLAT⟩
      else none
    else none
  (m2, sig)

/-- Feed a list of closes for one symbol through `on_bar_close`, collecting
the per-bar signals in order. -/
def runSMA (m : SMACrossover) (symbol : String) :
    List ℚ → SMACrossover × List (Option SignalMsg)
  | [] => (m, [])
  | c :: rest =>
    let r1 := onBarClose m symbol c
    let r2 := runSMA r1.1 symbol rest
    (r2.1, r1.2 :: r2.2)

/-- A price bar; only `'close'` is consulted by the strategy and the
backtest runner. -/
structure Bar where
  close : ℚ
deriving DecidableEq, Repr

/-- A backtest trade record `{'action': …, 'price': …}`. -/
structure TradeRecord where
  action : String
  price : ℚ
deriving DecidableEq, Repr

/-- The dict returned by `Backtester.run` (`equity` is never updated from
its initial `0.0` in the source). -/
structure BTResult where
  equity : ℚ
  trades : List TradeRecord
deriving DecidableEq, Repr

/-- The per-bar position/trade update of `Backtester.run`: on a LONG signal
when not already long (`position <= 0`) enter long one unit and record a
BUY at the bar's close; on a FLAT signal when long (`position > 0`) exit
and record a SELL; otherwise unchanged. Returns the new position and the
trades appended this bar. -/
def backtestStep (pos : ℚ) (sig : Option SignalMsg) (lastPrice : ℚ) :
    ℚ × List TradeRecord :=
  match sig with
  | none => (pos, [])
  | some s =>
    if s.signal = Signal.LONG ∧ pos ≤ 0 then (1, [⟨"BUY", lastPrice⟩])
    else if s.signal = Signal.FLAT ∧ 0 < pos then (0, [⟨"SELL", lastPrice⟩])
    else (pos, [])

/-- The bar loop of `Backtester.run`, generic in the strategy: `step` is
the strategy's `on_bar_close`, threading its state `σ`. -/
def backtestGo (step : σ → String → Bar → σ × Option SignalMsg) (symbol : String) :
    σ → ℚ → List TradeRecord → List Bar → ℚ × List TradeRecord
  | _, pos, trades, [] => (pos, trades)
  | st, pos, trades, bar :: rest =>
    let r1 := step st symbol bar
    let r2 := backtestStep pos r1.2 bar.close
    backtestGo step symbol r1.1 r2.1 (trades ++ r2.2) rest

/-- `Backtester.run(symbol, bars)`: position starts flat (`0.0`), trades
start empty, equity is reported unchanged at `0.0`. -/
def backtestRun (step : σ → String → Bar → σ × Option SignalMsg) (s0 : σ)
    (symbol : String) (bars : List Bar) : BTResult :=
  ⟨0, (backtestGo step symbol s0 0 [] bars).2⟩

/-- `SMACrossover.on_bar_close` as a backtest strategy step (the
`Backtester(strategy)` wiring of `trading_bot.py`). -/
def smaStep : SMACrossover → String → Bar → SMACrossover × Option SignalMsg :=
  fun m symbol bar => onBarClose m symbol bar.close

end BinanceBot

namespace BinanceBot

theorem buildGridGo_all_ok (client : GridReq → Except String α) (symbol : String)
    (basePrice stepPct : ℚ) (qty side : String) (l : List ℕ) (acc : List α)
    (h : ∀ i ∈ l, ∃ o, client (gridLevelReq symbol basePrice stepPct qty side i) = Except.ok o) :
    ∃ os, buildGridGo client symbol basePrice stepPct qty side l acc =
      ⟨true, some (acc.reverse ++ os), none⟩ ∧
      (∀ j, ∀ hj : j < os.length, ∀ hjl : j < l.length,
        client (gridLevelReq symbol basePrice stepPct qty side (l.get ⟨j, hjl⟩)) =
          Except.ok (os.get ⟨j, hj⟩)) ∧
      os.length = l.length := by
  induction l generalizing acc with
  | nil =>
    refine ⟨[], by simp [buildGridGo], ?_, rfl⟩
    intro j hj hjl
    simp at hj
  | cons i rest ih =>
    obtain ⟨o, ho⟩ := h i (by simp)
    obtain ⟨os, hos, hget, hlen⟩ := ih (o :: acc) (fun j hj => h j (by simp [hj]))
    refine ⟨o :: os, ?_, ?_, by simp [hlen]⟩
    · simp only [buildGridGo, ho]
      simpa using hos
    · intro j hj hjl
      cases j with
      | zero => simpa using ho
      | succ j =>
        exact hget j (by simpa using hj) (by simpa using hjl)

theorem buildGridGo_first_err (client : GridReq → Except String α) (symbol : String)
    (basePrice stepPct : ℚ) (qty side : String) (l₁ l₂ : List ℕ) (k : ℕ) (e : String)
    (acc : List α)
    (hok : ∀ i ∈ l₁, ∃ o, client (gridLevelReq symbol basePrice stepPct qty side i) = Except.ok o)
    (hfail : client (gridLevelReq symbol basePrice stepPct qty side k) = Except.error e) :
    buildGridGo client symbol basePrice stepPct qty side (l₁ ++ k :: l₂) acc =
      ⟨false, none, some e⟩ := by
  induction l₁ generalizing acc with
  | nil => simp [buildGridGo, hfail]
  | cons i rest ih =>
    obtain ⟨o, ho⟩ := hok i (by simp)
    simp only [List.cons_append, buildGridGo, ho]
    exact ih (o :: acc) (fun j hj => hok j (by simp [hj]))

theorem buildGridGo_id (symbol : String) (basePrice stepPct : ℚ) (qty side : String)
    (l : List ℕ) (acc : List GridReq) :
    buildGridGo (fun r => Except.ok r) symbol basePrice stepPct qty side l acc =
      ⟨true, some (acc.reverse ++ l.map (gridLevelReq symbol basePrice stepPct qty side)), none⟩ := by
  induction l generalizing acc with
  | nil => simp [buildGridGo]
  | cons i rest ih => simp [buildGridGo, ih (gridLevelReq symbol basePrice stepPct qty side i :: acc)]

/-- C1 (counterexample): `build_grid` over 2 BUY levels (base 100, step 1%)
with a client that accepts level 1 (price 99, order id 1) and raises at
level 2 (price 98): the returned dict is `{'success': False, 'error': 'boom'}`
with no `'orders'` key, so the already-placed order 1 is NOT contained in
the result, contrary to the claim. -/
theorem grid_partial_orders_dropped_cex :
    gridClientEx (gridLevelReq "BTCUSDT" 100 (1/100) "0.001" "BUY" 1) = Except.ok 1 ∧
    gridClientEx (gridLevelReq "BTCUSDT" 100 (1/100) "0.001" "BUY" 2) = Except.error "boom" ∧
    (buildGrid gridClientEx "BTCUSDT" 100 2 (1/100) "0.001" "BUY").orders = none ∧
    (buildGrid gridClientEx "BTCUSDT" 100 2 (1/100) "0.001" "BUY").success = false := by
  refine ⟨?_, ?_, ?_, ?_⟩ <;>
    norm_num [buildGrid, buildGridGo, gridClientEx, gridLevelReq, List.range',
      show pyUpper "BUY" = "BUY" from by decide]

/-- C1 (amended): if the first `k-1` level orders of a grid build succeed and
the `k`-th fails, `build_grid` returns only
`{'success': False, 'error': e}` — the already-placed orders are discarded
from the result (no `'orders'` key), not returned alongside the failure. -/
theorem grid_failure_returns_error_only (client : GridReq → Except String α)
    (symbol : String) (basePrice stepPct : ℚ) (qty side : String)
    (levels k : ℕ) (e : String) (hk1 : 1 ≤ k) (hk2 : k ≤ levels)
    (hok : ∀ i, 1 ≤ i → i < k →
      ∃ o, client (gridLevelReq symbol basePrice stepPct qty side i) = Except.ok o)
    (hfail : client (gridLevelReq symbol basePrice stepPct qty side k) = Except.error e) :
    buildGrid client symbol basePrice levels stepPct qty side = ⟨false, none, some e⟩ := by
  have hsplit : List.range' 1 levels =
      List.range' 1 (k - 1) ++ k :: List.range' (k + 1) (levels - k) := by
    have h1 := List.range'_append 1 (k - 1) (levels - (k - 1)) 1
    have h2 : 1 + 1 * (k - 1) = k := by omega
    have h3 : levels - (k - 1) + (k - 1) = levels := by omega
    rw [h2, h3] at h1
    have h4 : levels - (k - 1) = (levels - k) + 1 := by omega
    rw [h4, List.range'_succ] at h1
    simpa using h1.symm
  rw [buildGrid, hsplit]
  exact buildGridGo_first_err client symbol basePrice stepPct qty side _ _ k e []
    (fun i hi => hok i (List.mem_range'_1.mp hi).1
      (by have := (List.mem_range'_1.mp hi).2; omega)) hfail

/-- C1 (witness for the amended theorem): with the concrete client accepting
level 1 and failing level 2, the result is exactly the error-only dict. -/
theorem grid_failure_returns_error_only_wit :
    buildGrid gridClientEx "BTCUSDT" 100 2 (1/100) "0.001" "BUY" =
      ⟨false, none, some "boom"⟩ := by
  refine grid_failure_returns_error_only gridClientEx "BTCUSDT" 100 (1/100) "0.001" "BUY"
    2 2 "boom" (by norm_num) (by norm_num) ?_ ?_
  · intro i h1 h2
    have : i = 1 := by omega
    subst this
    exact ⟨1, by norm_num [gridClientEx, gridLevelReq, show pyUpper "BUY" = "BUY" from by decide]⟩
  · norm_num [gridClientEx, gridLevelReq, show pyUpper "BUY" = "BUY" from by decide]

/-- C7 (confirmed): a grid build over levels `i = 1..N` places, in order, one
limit order per level; the BUY request at level `i` is priced at
`base * (1 - step_pct * i)` and the SELL request at `base * (1 + step_pct * i)`
(linear, non-compounding offsets); for base 100, 3 levels, step 0.01 the BUY
prices are 99, 98, 97 and the SELL prices 101, 102, 103, in order. -/
theorem grid_level_prices_linear :
    ∀ (symbol : String) (basePrice stepPct : ℚ) (qty : String) (levels : ℕ),
    buildGrid (fun r => Except.ok r) symbol basePrice levels stepPct qty "BUY" =
      ⟨true, some ((List.range' 1 levels).map (gridLevelReq symbol basePrice stepPct qty "BUY")),
        none⟩ ∧
    buildGrid (fun r => Except.ok r) symbol basePrice levels stepPct qty "SELL" =
      ⟨true, some ((List.range' 1 levels).map (gridLevelReq symbol basePrice stepPct qty "SELL")),
        none⟩ ∧
    (∀ i : ℕ,
      (gridLevelReq symbol basePrice stepPct qty "BUY" i).price =
        basePrice * (1 - stepPct * (i : ℚ)) ∧
      (gridLevelReq symbol basePrice stepPct qty "SELL" i).price =
        basePrice * (1 + stepPct * (i : ℚ))) ∧
    (List.range' 1 3).map (fun i => gridLevelPrice 100 (1/100) "BUY" i) = [99, 98, 97] ∧
    (List.range' 1 3).map (fun i => gridLevelPrice 100 (1/100) "SELL" i) = [101, 102, 103] := by
  intro symbol basePrice stepPct qty levels
  refine ⟨?_, ?_, ?_, ?_, ?_⟩
  · rw [buildGrid, buildGridGo_id]
    simp
  · rw [buildGrid, buildGridGo_id]
    simp
  · intro i
    constructor
    · rw [gridLevelReq, if_pos (by decide)]
    · rw [gridLevelReq, if_neg (by decide)]
  · norm_num [List.range', gridLevelPrice, show pyUpper "BUY" = "BUY" from by decide]
  · norm_num [List.range', gridLevelPrice, show pyUpper "SELL" = "SELL" from by decide,
      show ¬ ("SELL" : String) = "BUY" from by decide]

/-- C2 (counterexample): client-side OCO fallback where the TP leg succeeds
(order id 10) and the SL leg raises: `submit` returns the blanket failure
`{'success': False, 'error': 'sl failed'}` — the result does not identify
the take-profit leg as succeeded (it has no `'tp'` key), contrary to the
claim. -/
theorem oco_tp_success_not_reported_cex :
    ocoClientEx.createOrder (ocoTpReq "BTCUSDT" "BUY" "0.5" "110") = Except.ok 10 ∧
    ocoClientEx.createOrder (ocoSlReq "BTCUSDT" "BUY" "0.5" "90") = Except.error "sl failed" ∧
    (ocoSubmit ocoClientEx "BTCUSDT" "BUY" "0.5" "110" "90").1 =
      ⟨false, none, none, none, none, some "sl failed"⟩ ∧
    (ocoSubmit ocoClientEx "BTCUSDT" "BUY" "0.5" "110" "90").1.tp = none := by
  refine ⟨rfl, rfl, ?_, ?_⟩ <;> rfl

/-- C2 (amended): in the client-side OCO fallback, if the TP leg succeeds
and the SL leg fails, `submit` reports only a blanket failure
`{'success': False, 'error': e}` that does not identify which leg
succeeded; the TP leg is not auto-cancelled (no cancel call ever occurs
in `submit`). -/
theorem oco_sl_failure_blanket_error (c : OcoClient α β)
    (symbol side qty tpPrice slPrice : String) (tp : α) (e : String)
    (hnative : c.createOcoOrder = none ∨
      ∃ f, c.createOcoOrder = some f ∧
        ∃ ne, f (ocoNativeOf symbol side qty tpPrice slPrice) = Except.error ne)
    (htp : c.createOrder (ocoTpReq symbol side qty tpPrice) = Except.ok tp)
    (hsl : c.createOrder (ocoSlReq symbol side qty slPrice) = Except.error e) :
    (ocoSubmit c symbol side qty tpPrice slPrice).1 =
      ⟨false, none, none, none, none, some e⟩ ∧
    (∀ sym oid,
      OcoCall.cancelled sym oid ∉ (ocoSubmit c symbol side qty tpPrice slPrice).2) := by
  have hfb : ocoFallback c symbol side qty tpPrice slPrice =
      (⟨false, none, none, none, none, some e⟩,
        [OcoCall.created (ocoTpReq symbol side qty tpPrice) (Except.ok tp),
         OcoCall.created (ocoSlReq symbol side qty slPrice) (Except.error e)]) := by
    rw [ocoFallback, htp, hsl]
  rcases hnative with hn | ⟨f, hf, ne, hne⟩
  · constructor
    · simp only [ocoSubmit, hn, hfb]
    · intro sym oid h
      simp only [ocoSubmit, hn, hfb] at h
      simp at h
  · constructor
    · simp only [ocoSubmit, hf, hne, hfb]
    · intro sym oid h
      simp only [ocoSubmit, hf, hne, hfb] at h
      simp at h

/-- C2 (witness for the amended theorem): with the concrete client whose
native OCO rejects, TP leg succeeds and SL leg raises, the result is
exactly the blanket failure dict. -/
theorem oco_sl_failure_blanket_error_wit :
    (ocoSubmit ocoClientEx "BTCUSDT" "BUY" "0.5" "110" "90").1 =
      ⟨false, none, none, none, none, some "sl failed"⟩ :=
  (oco_sl_failure_blanket_error ocoClientEx "BTCUSDT" "BUY" "0.5" "110" "90" 10 "sl failed"
    (Or.inr ⟨fun _ => Except.error "native rejected", rfl, "native rejected", rfl⟩)
    rfl rfl).1

theorem twapGo_all_ok (resp : ℕ → Except String α) (os : ℕ → α) (l : List ℕ)
    (acc : List α) (h : ∀ i ∈ l, resp i = Except.ok (os i)) :
    twapGo resp l acc = (⟨true, some (acc.reverse ++ l.map os), none⟩, l.length) := by
  induction l generalizing acc with
  | nil => simp [twapGo]
  | cons i rest ih =>
    have hi := h i (by simp)
    simp only [twapGo, hi]
    rw [ih (os i :: acc) (fun j hj => h j (by simp [hj]))]
    simp

theorem twapGo_first_err (resp : ℕ → Except String α) (os : ℕ → α)
    (l₁ l₂ : List ℕ) (k : ℕ) (e : String) (acc : List α)
    (hok : ∀ i ∈ l₁, resp i = Except.ok (os i)) (hk : resp k = Except.error e) :
    twapGo resp (l₁ ++ k :: l₂) acc =
      (⟨false, some (acc.reverse ++ l₁.map os), some e⟩, l₁.length + 1) := by
  induction l₁ generalizing acc with
  | nil => simp [twapGo, hk]
  | cons i rest ih =>
    have hi := hok i (by simp)
    simp only [List.cons_append, twapGo, hi, List.append_eq]
    rw [ih (os i :: acc) (fun j hj => hok j (by simp [hj]))]
    simp

/-- C6 (confirmed): TWAP execution rejects `slices ≤ 0` or `duration ≤ 0`
with the invalid-parameters error and issues no order; otherwise every
issued request carries quantity `max(total_qty / slices, min_slice_qty)`
and the inter-slice interval is `duration / slices`; on full success all
`slices` placed orders are returned in order; if call `k` (0-based, so
slice `k+1`) is the first to fail, execution stops at once — exactly `k+1`
calls are made (no retry of the failed slice, no rollback) — and the
result carries exactly the `k` already-placed orders together with the
failure. Includes the spec's numeric examples. -/
theorem twap_slice_semantics (resp : ℕ → TwapReq → Except String α)
    (symbol side : String) (totalQty : ℚ) (durationSec slices : ℤ)
    (minSliceQty : ℚ) (os : ℕ → α) (k : ℕ) (e : String) :
    (slices ≤ 0 ∨ durationSec ≤ 0 →
      twapExecute resp symbol side totalQty durationSec slices minSliceQty =
        (⟨false, none, some "Invalid slices/duration"⟩, 0)) ∧
    (0 < slices → 0 < durationSec →
      (∀ i, i < slices.toNat →
        resp i (twapOrderReq symbol side totalQty slices minSliceQty) = Except.ok (os i)) →
      twapExecute resp symbol side totalQty durationSec slices minSliceQty =
        (⟨true, some ((List.range slices.toNat).map os), none⟩, slices.toNat)) ∧
    (0 < slices → 0 < durationSec → k < slices.toNat →
      (∀ i, i < k →
        resp i (twapOrderReq symbol side totalQty slices minSliceQty) = Except.ok (os i)) →
      resp k (twapOrderReq symbol side totalQty slices minSliceQty) = Except.error e →
      twapExecute resp symbol side totalQty durationSec slices minSliceQty =
        (⟨false, some ((List.range k).map os), some e⟩, k + 1) ∧ k + 1 ≤ slices.toNat) ∧
    (twapOrderReq symbol side totalQty slices minSliceQty).quantity =
      max (totalQty / (slices : ℚ)) minSliceQty ∧
    twapInterval durationSec slices = (durationSec : ℚ) / (slices : ℚ) ∧
    twapSliceQty 1 4 0 = 1/4 ∧ twapInterval 8 4 = 2 := by
  refine ⟨?_, ?_, ?_, rfl, rfl, ?_, ?_⟩
  · intro h
    rw [twapExecute, if_pos h]
  · intro hs hd hok
    rw [twapExecute, if_neg (by omega)]
    rw [twapGo_all_ok _ os _ [] (fun i hi => hok i (List.mem_range.mp hi))]
    simp [List.length_range]
  · intro hs hd hk hok hfail
    have hsplit : List.range slices.toNat =
        List.range k ++ k :: List.range' (k + 1) (slices.toNat - k - 1) := by
      rw [List.range_eq_range']
      have h1 := List.range'_append 0 k (slices.toNat - k) 1
      have h2 : 0 + 1 * k = k := by omega
      have h3 : slices.toNat - k + k = slices.toNat := by omega
      rw [h2, h3] at h1
      have h4 : slices.toNat - k = (slices.toNat - k - 1) + 1 := by omega
      rw [h4, List.range'_succ] at h1
      rw [← h1, List.range_eq_range']
    constructor
    · rw [twapExecute, if_neg (by omega), hsplit]
      rw [twapGo_first_err _ os _ _ k e []
        (fun i hi => hok i (by
          rw [List.range_eq_range'] at hi
          have := List.mem_range'_1.mp hi
          omega)) hfail]
      simp [List.length_range]
    · omega
  · rw [twapSliceQty]
    norm_num
  · rw [twapInterval]
    norm_num

/-- C6 (witness): total quantity 1, duration 8 s, 4 slices, 0 minimum, the
third call failing: the result carries exactly the 2 already-placed orders
and the failure, after exactly 3 calls. -/
theorem twap_slice_semantics_wit :
    twapExecute twapClientEx "BTCUSDT" "BUY" 1 8 4 0 =
      (⟨false, some [1, 2], some "slice failed"⟩, 3) := by
  have h := ((twap_slice_semantics twapClientEx "BTCUSDT" "BUY" 1 8 4 0
    (fun i => i + 1) 2 "slice failed").2.2.1 (by norm_num) (by norm_num)
    (by norm_num)
    (fun i hi => by
      have : i < 2 := hi
      simp [twapClientEx, this])
    (by simp [twapClientEx])).1
  simpa [List.range] using h

theorem quantize_eq_floor_mul (q s : ℚ) (hq : 0 ≤ q) (hs : 0 < s) :
    quantize q s = (⌊q / s⌋ : ℚ) * s := by
  rw [quantize, decFloorDiv, if_pos (div_nonneg hq hs.le)]

theorem quantize_zero_of_lt (q s : ℚ) (hq : 0 ≤ q) (hqs : q < s) (hs : 0 < s) :
    quantize q s = 0 := by
  rw [quantize_eq_floor_mul q s hq hs]
  have h0 : ⌊q / s⌋ = 0 := by
    rw [Int.floor_eq_zero_iff]
    exact ⟨div_nonneg hq hs.le, (div_lt_one hs).mpr hqs⟩
  rw [h0]
  norm_num

/-- C5 (confirmed): for `0 ≤ q` and step `0 < s`, the quantizer used by
`format_quantity`/`format_price` returns the largest exact multiple of `s`
not exceeding `q` (round toward zero, never up): the result is an integer
multiple of `s`, is `≤ q`, is `0` whenever `q < s`, and dominates every
multiple of `s` below `q`; moreover, for a decimal step `s = a / 10^k` the
result is exactly `b / 10^k` for an integer `b`, i.e. it has an exact
fixed-point decimal representation (no floating artifacts, renderable
without scientific notation). -/
theorem quantize_round_down (q s : ℚ) (hq : 0 ≤ q) (hs : 0 < s) :
    (∃ n : ℤ, quantize q s = (n : ℚ) * s) ∧
    quantize q s ≤ q ∧
    (q < s → quantize q s = 0) ∧
    (∀ m : ℤ, (m : ℚ) * s ≤ q → (m : ℚ) * s ≤ quantize q s) ∧
    (∀ k : ℕ, ∀ a : ℤ, s = (a : ℚ) / 10 ^ k →
      ∃ b : ℤ, quantize q s = (b : ℚ) / 10 ^ k) := by
  have hfl := quantize_eq_floor_mul q s hq hs
  refine ⟨⟨⌊q / s⌋, hfl⟩, ?_, fun hlt => quantize_zero_of_lt q s hq hlt hs, ?_, ?_⟩
  · rw [hfl]
    calc (⌊q / s⌋ : ℚ) * s ≤ (q / s) * s :=
          mul_le_mul_of_nonneg_right (Int.floor_le _) hs.le
    _ = q := div_mul_cancel₀ q hs.ne'
  · intro m hm
    rw [hfl]
    have h1 : (m : ℚ) ≤ q / s := (le_div_iff₀ hs).mpr hm
    have h2 : m ≤ ⌊q / s⌋ := Int.le_floor.mpr h1
    exact mul_le_mul_of_nonneg_right (by exact_mod_cast h2) hs.le
  · intro k a ha
    refine ⟨⌊q / s⌋ * a, ?_⟩
    rw [hfl, ha]
    push_cast
    ring

/-- C5 (witness): quantizing 0.0234 to step 0.001 stays below the input. -/
theorem quantize_round_down_wit :
    (0 : ℚ) ≤ 117/5000 ∧ (0 : ℚ) < 1/1000 ∧
      quantize (117/5000) (1/1000) ≤ 117/5000 :=
  ⟨by norm_num, by norm_num,
    (quantize_round_down (117/5000) (1/1000) (by norm_num) (by norm_num)).2.1⟩

/-- C3 (counterexample): BTCUSDT has step size 0.001; the proposed MARKET
BUY for raw quantity 0.0005 (below one step) quantizes to 0, yet
`validate_order_params` accepts it — the validator checks only the raw
quantity, so the claimed rejection of non-positive quantized quantities
does not happen. -/
theorem validator_accepts_substep_quantity_cex :
    validateOrderParams exInfoEx "BTCUSDT" "BUY" "MARKET" (1/2000) none = true ∧
    quantize (1/2000) (1/1000) = 0 ∧
    formatQuantity exInfoEx "BTCUSDT" (1/2000) = 0 := by
  have hz : quantize (1/2000 : ℚ) (1/1000) = 0 :=
    quantize_zero_of_lt _ _ (by norm_num) (by norm_num) (by norm_num)
  refine ⟨?_, hz, ?_⟩
  · norm_num [validateOrderParams, getSymbolInfo, exInfoEx, validOrderTypes,
      priceRequiredTypes, priceMissingOrNonpos, List.find?,
      show pyUpper "BTCUSDT" = "BTCUSDT" from by decide,
      show pyUpper "BUY" = "BUY" from by decide,
      show pyUpper "MARKET" = "MARKET" from by decide,
      show ¬ ("MARKET" : String) = "LIMIT" from by decide,
      show ¬ ("MARKET" : String) = "STOP_LOSS_LIMIT" from by decide,
      show ¬ ("MARKET" : String) = "TAKE_PROFIT_LIMIT" from by decide]
  · have hinfo : getSymbolInfo exInfoEx "BTCUSDT" =
        some ⟨"BTCUSDT", [ExFilter.lotSize (1/1000), ExFilter.priceFilter (1/100)]⟩ := rfl
    simp only [formatQuantity, hinfo]
    rw [show List.findSome? lotSizeStep
      [ExFilter.lotSize (1/1000), ExFilter.priceFilter (1/100)] = some (1/1000) from rfl]
    exact hz

/-- C3 (amended): for a known symbol, valid side and type MARKET,
`validate_order_params` passes exactly when the RAW quantity is positive —
the quantized quantity is never checked; consequently an order whose raw
quantity is positive but below one step size passes validation and its
formatted quantity at submission is 0. -/
theorem validator_checks_raw_quantity (exchangeInfo : Except String (List SymbolInfo))
    (symbol side : String) (qty : ℚ) (info : SymbolInfo)
    (hinfo : getSymbolInfo exchangeInfo symbol = some info)
    (hside : pyUpper side ∈ (["BUY", "SELL"] : List String)) :
    (validateOrderParams exchangeInfo symbol side "MARKET" qty none = true ↔ 0 < qty) ∧
    (∀ step : ℚ, info.filters.findSome? lotSizeStep = some step →
      0 < qty → qty < step →
      validateOrderParams exchangeInfo symbol side "MARKET" qty none = true ∧
      formatQuantity exchangeInfo symbol qty = 0) := by
  have hvalid : validateOrderParams exchangeInfo symbol side "MARKET" qty none = true ↔
      0 < qty := by
    simp only [validateOrderParams, hinfo]
    rw [if_neg (by simp [hside])]
    rw [if_neg (by simp [show pyUpper "MARKET" = "MARKET" from by decide, validOrderTypes])]
    by_cases hq : qty ≤ 0
    · rw [if_pos hq]
      constructor
      · intro h
        exact absurd h (by simp)
      · intro h
        linarith
    · rw [if_neg hq,
        if_neg (by simp [show pyUpper "MARKET" = "MARKET" from by decide, priceRequiredTypes])]
      simp [lt_of_not_le hq]
  refine ⟨hvalid, ?_⟩
  intro step hstep hq hlt
  refine ⟨hvalid.mpr hq, ?_⟩
  simp only [formatQuantity, hinfo, hstep]
  exact quantize_zero_of_lt qty step hq.le hlt (lt_trans hq hlt)

/-- C3 (witness for the amended theorem): the concrete sub-step order
passes validation and is formatted to quantity 0. -/
theorem validator_checks_raw_quantity_wit :
    validateOrderParams exInfoEx "BTCUSDT" "BUY" "MARKET" (1/2000) none = true ∧
    formatQuantity exInfoEx "BTCUSDT" (1/2000) = 0 :=
  (validator_checks_raw_quantity exInfoEx "BTCUSDT" "BUY" (1/2000)
    ⟨"BTCUSDT", [ExFilter.lotSize (1/1000), ExFilter.priceFilter (1/100)]⟩
    rfl (by decide)).2 (1/1000) rfl (by norm_num) (by norm_num)

/-- C4 (counterexample): the first `create_order` call raises a
timeout-style (transient) error and any second attempt would succeed with
order id 7, yet `place_market_order` returns the failure dict built from
the first error — no retry is ever made. -/
theorem place_market_order_no_retry_cex :
    retryClientEx 0 ⟨"BTCUSDT", "BUY", "MARKET", 1/1000⟩ =
      Except.error "Read timed out." ∧
    retryClientEx 1 ⟨"BTCUSDT", "BUY", "MARKET", 1/1000⟩ = Except.ok 7 ∧
    placeMarketOrder exInfoEx retryClientEx "BTCUSDT" "BUY" (1/1000) =
      PlaceResult.err "Read timed out." := by
  refine ⟨rfl, rfl, ?_⟩
  have hv : validateOrderParams exInfoEx "BTCUSDT" "BUY" "MARKET" (1/1000) none = true := by
    norm_num [validateOrderParams, getSymbolInfo, exInfoEx, validOrderTypes,
      priceRequiredTypes, priceMissingOrNonpos, List.find?,
      show pyUpper "BTCUSDT" = "BTCUSDT" from by decide,
      show pyUpper "BUY" = "BUY" from by decide,
      show pyUpper "MARKET" = "MARKET" from by decide,
      show ¬ ("MARKET" : String) = "LIMIT" from by decide,
      show ¬ ("MARKET" : String) = "STOP_LOSS_LIMIT" from by decide,
      show ¬ ("MARKET" : String) = "TAKE_PROFIT_LIMIT" from by decide]
  rw [placeMarketOrder, if_pos hv]
  rfl

/-- C4 (amended): order placement makes exactly one exchange attempt: the
result of `place_market_order` depends only on the response to call 0 (so
no error — transient or otherwise — is ever retried), and when validation
passes and that single call raises `e`, the error is surfaced immediately
to the caller as `{'success': False, 'error': e}`. -/
theorem place_market_order_single_attempt (exchangeInfo : Except String (List SymbolInfo))
    (resp resp' : ℕ → MarketReq → Except String α) (symbol side : String)
    (qty : ℚ) (e : String) :
    (resp 0 = resp' 0 →
      placeMarketOrder exchangeInfo resp symbol side qty =
        placeMarketOrder exchangeInfo resp' symbol side qty) ∧
    (validateOrderParams exchangeInfo symbol side "MARKET" qty none = true →
      resp 0 ⟨pyUpper symbol, pyUpper side, "MARKET",
        formatQuantity exchangeInfo symbol qty⟩ = Except.error e →
      placeMarketOrder exchangeInfo resp symbol side qty = PlaceResult.err e) := by
  constructor
  · intro h0
    rw [placeMarketOrder, placeMarketOrder, h0]
  · intro hv he
    rw [placeMarketOrder, if_pos hv, he]

/-- C4 (witness for the amended theorem): with the client whose first call
times out, the error is surfaced directly. -/
theorem place_market_order_single_attempt_wit :
    placeMarketOrder exInfoEx retryClientEx "BTCUSDT" "SELL" (1/500) =
      PlaceResult.err "Read timed out." :=
  (place_market_order_single_attempt exInfoEx retryClientEx retryClientEx
    "BTCUSDT" "SELL" (1/500) "Read timed out.").2
    (by norm_num [validateOrderParams, getSymbolInfo, exInfoEx, validOrderTypes,
      priceRequiredTypes, priceMissingOrNonpos, List.find?,
      show pyUpper "BTCUSDT" = "BTCUSDT" from by decide,
      show pyUpper "SELL" = "SELL" from by decide,
      show pyUpper "MARKET" = "MARKET" from by decide,
      show ¬ ("MARKET" : String) = "LIMIT" from by decide,
      show ¬ ("MARKET" : String) = "STOP_LOSS_LIMIT" from by decide,
      show ¬ ("MARKET" : String) = "TAKE_PROFIT_LIMIT" from by decide])
    rfl

/-- C10 (confirmed): when the instrument metadata lookup fails, or the
metadata has no `LOT_SIZE` (resp. `PRICE_FILTER`) filter, `format_quantity`
(resp. `format_price`) silently returns the raw input unquantized — no
error is raised — and such an order can reach submission: with a known
symbol lacking a `LOT_SIZE` filter, `place_market_order` passes validation
and sends `create_order` the raw, unquantized quantity. -/
theorem format_skips_quantization_without_filters
    (exchangeInfo : Except String (List SymbolInfo)) (symbol side : String) (q p : ℚ) :
    (getSymbolInfo exchangeInfo symbol = none →
      formatQuantity exchangeInfo symbol q = q ∧
      formatPrice exchangeInfo symbol p = p) ∧
    (∀ info, getSymbolInfo exchangeInfo symbol = some info →
      info.filters.findSome? lotSizeStep = none →
      formatQuantity exchangeInfo symbol q = q) ∧
    (∀ info, getSymbolInfo exchangeInfo symbol = some info →
      info.filters.findSome? tickSizeOf = none →
      formatPrice exchangeInfo symbol p = p) ∧
    (∀ info, getSymbolInfo exchangeInfo symbol = some info →
      info.filters.findSome? lotSizeStep = none →
      pyUpper side ∈ (["BUY", "SELL"] : List String) → 0 < q →
      placeMarketOrder exchangeInfo (fun _ r => Except.ok r) symbol side q =
        PlaceResult.ok ⟨pyUpper symbol, pyUpper side, "MARKET", q⟩) := by
  refine ⟨?_, ?_, ?_, ?_⟩
  · intro hnone
    constructor
    · simp only [formatQuantity, hnone]
    · simp only [formatPrice, hnone]
  · intro info hinfo hnof
    simp only [formatQuantity, hinfo, hnof]
  · intro info hinfo hnof
    simp only [formatPrice, hinfo, hnof]
  · intro info hinfo hnof hside hq
    have hfq : formatQuantity exchangeInfo symbol q = q := by
      simp only [formatQuantity, hinfo, hnof]
    have hv : validateOrderParams exchangeInfo symbol side "MARKET" q none = true := by
      simp only [validateOrderParams, hinfo]
      rw [if_neg (by simp [hside])]
      rw [if_neg (by simp [show pyUpper "MARKET" = "MARKET" from by decide, validOrderTypes])]
      rw [if_neg (by simp; linarith)]
      rw [if_neg
        (by simp [show pyUpper "MARKET" = "MARKET" from by decide, priceRequiredTypes])]
    rw [placeMarketOrder, if_pos hv, hfq]

/-- C10 (witness): with the exchange-info call failing, both formatters
return the raw input (values that are multiples of no sane step). -/
theorem format_skips_quantization_without_filters_wit :
    formatQuantity (Except.error "exchange down") "BTCUSDT" (1/3) = 1/3 ∧
    formatPrice (Except.error "exchange down") "BTCUSDT" (2/7) = 2/7 :=
  (format_skips_quantization_without_filters (Except.error "exchange down")
    "BTCUSDT" "BUY" (1/3) (2/7)).1 rfl

theorem dequeAppend_replicate (n k : ℕ) (c : ℚ) :
    dequeAppend n (List.replicate k c) c = List.replicate (min (k + 1) n) c := by
  rw [dequeAppend, ← List.replicate_succ']
  simp only [List.length_replicate]
  split_ifs with h
  · rw [List.drop_replicate]
    congr 1
    omega
  · congr 1
    omega

theorem sum_replicate_mul (n : ℕ) (c : ℚ) :
    (List.replicate n c).sum = (n : ℚ) * c := by
  simp [List.sum_replicate, nsmul_eq_mul]

theorem onBarClose_buf (m : SMACrossover) (symbol : String) (close : ℚ) :
    (onBarClose m symbol close).1 =
      ⟨m.fast, m.slow, fun s => if s = symbol then
        some (smaFastWin m symbol close, smaSlowWin m symbol close)
      else m.buf s⟩ := rfl

theorem onBarClose_const_none (m : SMACrossover) (symbol : String) (c : ℚ)
    (hF : 0 < m.fast) (hS : 0 < m.slow) (k1 k2 : ℕ)
    (hk : (m.buf symbol).getD ([], []) = (List.replicate k1 c, List.replicate k2 c)) :
    (onBarClose m symbol c).2 = none := by
  have hfb : smaFastWin m symbol c = List.replicate (min (k1 + 1) m.fast) c := by
    rw [smaFastWin, hk]
    exact dequeAppend_replicate _ _ _
  have hsb : smaSlowWin m symbol c = List.replicate (min (k2 + 1) m.slow) c := by
    rw [smaSlowWin, hk]
    exact dequeAppend_replicate _ _ _
  show (if (smaFastWin m symbol c).length = m.fast ∧ (smaSlowWin m symbol c).length = m.slow
    then _ else none) = none
  by_cases hg : (smaFastWin m symbol c).length = m.fast ∧
      (smaSlowWin m symbol c).length = m.slow
  · rw [if_pos hg]
    have h1 : (smaFastWin m symbol c).sum / (m.fast : ℚ) = c := by
      have hlen : min (k1 + 1) m.fast = m.fast := by
        have := hg.1
        rw [hfb, List.length_replicate] at this
        exact this
      rw [hfb, hlen, sum_replicate_mul,
        mul_div_cancel_left₀ c (by exact_mod_cast hF.ne')]
    have h2 : (smaSlowWin m symbol c).sum / (m.slow : ℚ) = c := by
      have hlen : min (k2 + 1) m.slow = m.slow := by
        have := hg.2
        rw [hsb, List.length_replicate] at this
        exact this
      rw [hsb, hlen, sum_replicate_mul,
        mul_div_cancel_left₀ c (by exact_mod_cast hS.ne')]
    rw [h1, h2]
    simp [lt_irrefl]
  · rw [if_neg hg]

theorem runSMA_const_none (symbol : String) (c : ℚ) :
    ∀ (n : ℕ) (m : SMACrossover), 0 < m.fast → 0 < m.slow →
    (m.buf symbol = none ∨
      ∃ k1 k2, m.buf symbol = some (List.replicate k1 c, List.replicate k2 c)) →
    ∀ sig ∈ (runSMA m symbol (List.replicate n c)).2, sig = none := by
  intro n
  induction n with
  | zero =>
    intro m _ _ _ sig hs
    simp [runSMA] at hs
  | succ n ih =>
    intro m hF hS hbuf sig hs
    obtain ⟨k1, k2, hk⟩ : ∃ k1 k2,
        (m.buf symbol).getD ([], []) = (List.replicate k1 c, List.replicate k2 c) := by
      rcases hbuf with h | ⟨k1, k2, h⟩
      · exact ⟨0, 0, by simp [h]⟩
      · exact ⟨k1, k2, by simp [h]⟩
    rw [List.replicate_succ] at hs
    simp only [runSMA, List.mem_cons] at hs
    rcases hs with rfl | hmem
    · exact onBarClose_const_none m symbol c hF hS k1 k2 hk
    · refine ih (onBarClose m symbol c).1 ?_ ?_ ?_ sig hmem
      · rw [onBarClose_buf]
        exact hF
      · rw [onBarClose_buf]
        exact hS
      · right
        refine ⟨min (k1 + 1) m.fast, min (k2 + 1) m.slow, ?_⟩
        rw [onBarClose_buf]
        simp [smaFastWin, smaSlowWin, hk, dequeAppend_replicate]

/-- C8 (confirmed): per bar-close of a symbol, the windows grow by the new
close (evicting past capacity); no signal is emitted unless both windows
are exactly at capacity; when they are, LONG is emitted exactly when the
fast mean exceeds the slow mean, FLAT exactly when it is below, and nothing
when equal; a constant close sequence therefore never emits a signal; and
for fast=2, slow=3, closes [1,2,3,4,5], the signals are
[none, none, LONG, LONG, LONG]. -/
theorem sma_crossover_signal_rules :
    (∀ (m : SMACrossover) (symbol : String) (close : ℚ),
      0 < m.fast → 0 < m.slow →
      ((onBarClose m symbol close).1.buf symbol =
        some (smaFastWin m symbol close, smaSlowWin m symbol close)) ∧
      (¬((smaFastWin m symbol close).length = m.fast ∧
          (smaSlowWin m symbol close).length = m.slow) →
        (onBarClose m symbol close).2 = none) ∧
      ((smaFastWin m symbol close).length = m.fast →
        (smaSlowWin m symbol close).length = m.slow →
        ((onBarClose m symbol close).2 = some ⟨symbol, Signal.LONG⟩ ↔
          (smaSlowWin m symbol close).sum / (m.slow : ℚ) <
            (smaFastWin m symbol close).sum / (m.fast : ℚ)) ∧
        ((onBarClose m symbol close).2 = some ⟨symbol, Signal.FLAT⟩ ↔
          (smaFastWin m symbol close).sum / (m.fast : ℚ) <
            (smaSlowWin m symbol close).sum / (m.slow : ℚ)) ∧
        ((smaFastWin m symbol close).sum / (m.fast : ℚ) =
            (smaSlowWin m symbol close).sum / (m.slow : ℚ) →
          (onBarClose m symbol close).2 = none))) ∧
    (∀ (F S : ℕ), 0 < F → 0 < S → ∀ (symbol : String) (c : ℚ) (n : ℕ),
      ∀ sig ∈ (runSMA (initSMA F S) symbol (List.replicate n c)).2, sig = none) ∧
    (runSMA (initSMA 2 3) "BTCUSDT" [1, 2, 3, 4, 5]).2 =
      [none, none, some ⟨"BTCUSDT", Signal.LONG⟩, some ⟨"BTCUSDT", Signal.LONG⟩,
        some ⟨"BTCUSDT", Signal.LONG⟩] := by
  refine ⟨?_, ?_, ?_⟩
  · intro m symbol close hF hS
    refine ⟨by rw [onBarClose_buf]; simp, ?_, ?_⟩
    · intro hn
      show (if (smaFastWin m symbol close).length = m.fast ∧
          (smaSlowWin m symbol close).length = m.slow then _ else none) = none
      rw [if_neg hn]
    · intro hf hs2
      have hsig : (onBarClose m symbol close).2 =
          (if (smaSlowWin m symbol close).sum / (m.slow : ℚ) <
              (smaFastWin m symbol close).sum / (m.fast : ℚ) then
            some ⟨symbol, Signal.LONG⟩
          else if (smaFastWin m symbol close).sum / (m.fast : ℚ) <
              (smaSlowWin m symbol close).sum / (m.slow : ℚ) then
            some ⟨symbol, Signal.FLAT⟩
          else none) := by
        show (if (smaFastWin m symbol close).length = m.fast ∧
            (smaSlowWin m symbol close).length = m.slow then _ else none) = _
        rw [if_pos ⟨hf, hs2⟩]
      rw [hsig]
      by_cases hA : (smaSlowWin m symbol close).sum / (m.slow : ℚ) <
          (smaFastWin m symbol close).sum / (m.fast : ℚ)
      · rw [if_pos hA]
        refine ⟨by simp [hA], by simp [not_lt_of_lt hA, hA], fun he => absurd he (by
          intro he
          rw [he] at hA
          exact lt_irrefl _ hA)⟩
      · rw [if_neg hA]
        by_cases hB : (smaFastWin m symbol close).sum / (m.fast : ℚ) <
            (smaSlowWin m symbol close).sum / (m.slow : ℚ)
        · rw [if_pos hB]
          refine ⟨by simp [hA], by simp [hB], fun he => absurd he (by
            intro he
            rw [he] at hB
            exact lt_irrefl _ hB)⟩
        · rw [if_neg hB]
          exact ⟨by simp [hA], by simp [hB], fun _ => rfl⟩
  · intro F S hF hS symbol c n
    exact runSMA_const_none symbol c n (initSMA F S) hF hS (Or.inl rfl)
  · norm_num [runSMA, onBarClose, smaFastWin, smaSlowWin, dequeAppend, initSMA]

/-- C8 (witness): at the very first bar the windows (length 1) are not at
capacity 2 and 3, so no signal is emitted. -/
theorem sma_crossover_signal_rules_wit :
    (onBarClose (initSMA 2 3) "BTCUSDT" 5).2 = none :=
  (sma_crossover_signal_rules.1 (initSMA 2 3) "BTCUSDT" 5
    (by norm_num [initSMA]) (by norm_num [initSMA])).2.1
    (by norm_num [smaFastWin, initSMA, dequeAppend])

theorem backtestStep_pos_cases (pos : ℚ) (sig : Option SignalMsg) (price : ℚ)
    (h : pos = 0 ∨ pos = 1) :
    (backtestStep pos sig price).1 = 0 ∨ (backtestStep pos sig price).1 = 1 := by
  match sig with
  | none => exact h
  | some s =>
    rw [backtestStep]
    split_ifs
    · right; rfl
    · left; rfl
    · exact h

/-- C9 (confirmed): for every strategy and bar sequence, the backtest
appends a BUY record at the bar's close exactly when the signal is LONG
and the position is not already long (position becomes 1), a SELL record
at the bar's close exactly when the signal is FLAT and the position is
long (position becomes 0), and nothing otherwise; the position is only
ever 0 (FLAT) or 1 (LONG) — never short; and the concrete SMA(2,3) close
sequence 1,1,1,5,1,1 (crossing up then down) produces exactly one BUY at 5
followed by exactly one SELL at 1. -/
theorem backtest_signal_driven_trades (step : σ → String → Bar → σ × Option SignalMsg)
    (symbol : String) :
    (∀ (pos price : ℚ) (msg : SignalMsg),
      backtestStep pos none price = (pos, []) ∧
      (msg.signal = Signal.LONG → pos ≤ 0 →
        backtestStep pos (some msg) price = (1, [⟨"BUY", price⟩])) ∧
      (msg.signal = Signal.LONG → 0 < pos →
        backtestStep pos (some msg) price = (pos, [])) ∧
      (msg.signal = Signal.FLAT → 0 < pos →
        backtestStep pos (some msg) price = (0, [⟨"SELL", price⟩])) ∧
      (msg.signal = Signal.FLAT → pos ≤ 0 →
        backtestStep pos (some msg) price = (pos, []))) ∧
    (∀ (bars : List Bar) (st : σ) (pos : ℚ) (trades : List TradeRecord),
      pos = 0 ∨ pos = 1 →
      (backtestGo step symbol st pos trades bars).1 = 0 ∨
        (backtestGo step symbol st pos trades bars).1 = 1) ∧
    backtestRun smaStep (initSMA 2 3) "BTCUSDT" [⟨1⟩, ⟨1⟩, ⟨1⟩, ⟨5⟩, ⟨1⟩, ⟨1⟩] =
      ⟨0, [⟨"BUY", 5⟩, ⟨"SELL", 1⟩]⟩ := by
  refine ⟨?_, ?_, ?_⟩
  · intro pos price msg
    refine ⟨rfl, ?_, ?_, ?_, ?_⟩
    · intro hsig hpos
      rw [backtestStep, if_pos ⟨hsig, hpos⟩]
    · intro hsig hpos
      rw [backtestStep, if_neg (by simp [not_le.mpr hpos]),
        if_neg (by simp [hsig])]
    · intro hsig hpos
      rw [backtestStep, if_neg (by simp [hsig]), if_pos ⟨hsig, hpos⟩]
    · intro hsig hpos
      rw [backtestStep, if_neg (by simp [hsig]),
        if_neg (by simp [not_lt.mpr hpos])]
  · intro bars
    induction bars with
    | nil => intro st pos trades h; exact h
    | cons bar rest ih =>
      intro st pos trades h
      rw [backtestGo]
      exact ih _ _ _ (backtestStep_pos_cases pos (step st symbol bar).2 bar.close h)
  · norm_num [backtestRun, backtestGo, backtestStep, smaStep, onBarClose,
      smaFastWin, smaSlowWin, dequeAppend, initSMA,
      show ¬ (Signal.LONG = Signal.FLAT) from by decide,
      show ¬ (Signal.FLAT = Signal.LONG) from by decide]

/-- C9 (witness): a LONG signal with a flat position records a BUY at the
bar's close and moves the position to 1. -/
theorem backtest_signal_driven_trades_wit :
    backtestStep 0 (some ⟨"BTCUSDT", Signal.LONG⟩) 5 = (1, [⟨"BUY", 5⟩]) :=
  ((backtest_signal_driven_trades smaStep "BTCUSDT").1 0 5
    ⟨"BTCUSDT", Signal.LONG⟩).2.1 rfl (by norm_num)

end BinanceBot
